import Mathlib

/-!
# Shallow embedding of the S2Tui audio/transcription core

Definitions translated from the repository sources:
- `src-tauri/src/whisper/streaming.rs` (`AudioStreamer`)
- `src-tauri/src/audio/vad.rs` (`VoiceActivityDetector`)
- `src-tauri/src/audio/capture.rs` (`resample`)
- `src-tauri/src/whisper/worker.rs` (`WhisperEngine`)
- `src-tauri/src/whisper/gpu.rs` (`GpuBackend`)

Numeric conventions: Rust `i16` samples are embedded as `Int`, `f32`/`f64`
arithmetic is idealised as exact rational arithmetic (`ℚ`).  Conversions
performed by Rust `as` casts are modelled explicitly (truncation toward zero,
saturation) where they occur.
-/

namespace S2Tui

/-! ## AudioStreamer (whisper/streaming.rs) -/

/-- The `AudioStreamer` struct: a `VecDeque<Vec<i16>>` buffer (front of the
list is the front of the deque), a chunk size in samples and a sample rate. -/
structure AudioStreamer where
  buffer : List (List Int)
  chunk_size : Nat
  sample_rate : Nat
deriving DecidableEq

/-- Rust `AudioStreamer::new`: 100 ms chunks at the given sample rate. -/
def AudioStreamer.new (sample_rate : Nat) : AudioStreamer :=
  { buffer := [], chunk_size := sample_rate / 10, sample_rate := sample_rate }

/-- Rust's slice `chunks(n)`: successive sub-slices of length `n`, the last one
possibly shorter.  Rust panics when `n = 0`; that case is modelled as producing
no chunks (all theorems about `chunksOf` assume `0 < n`). -/
def chunksOf (n : Nat) : List Int → List (List Int)
  | [] => []
  | x :: xs =>
    if _h : n = 0 then []
    else (x :: xs).take n :: chunksOf n ((x :: xs).drop n)
termination_by l => l.length
decreasing_by
  simp only [List.length_drop, List.length_cons]
  omega

/-- Rust `AudioStreamer::push`: split the incoming samples into chunks of
`chunk_size` and append them at the back of the queue. -/
def AudioStreamer.push (s : AudioStreamer) (samples : List Int) : AudioStreamer :=
  { s with buffer := s.buffer ++ chunksOf s.chunk_size samples }

/-- Rust `AudioStreamer::pop`: remove and return the oldest chunk (FIFO). -/
def AudioStreamer.pop (s : AudioStreamer) : Option (List Int) × AudioStreamer :=
  match s.buffer with
  | [] => (none, s)
  | c :: rest => (some c, { s with buffer := rest })

/-- Rust `AudioStreamer::drain`: pop every chunk in FIFO order, concatenating them
into a single vector, leaving the queue empty. -/
def AudioStreamer.drain (s : AudioStreamer) : List Int × AudioStreamer :=
  (s.buffer.flatten, { s with buffer := [] })

/-! ## VoiceActivityDetector (audio/vad.rs) -/

/-- Rust `calculate_rms` computes `sqrt(sum(normalized²) / len)` (0 for an empty
slice).  To stay inside computable rational arithmetic we embed the value
under the square root: the mean of the squared samples normalised by
`i16::MAX = 32767`.  Every use of the rms in the source is a comparison
against a bound, which `rms_gt` translates faithfully (see there). -/
def calculate_rms_sq (samples : List Int) : ℚ :=
  if samples.isEmpty then 0
  else (samples.map (fun s => ((s : ℚ) / 32767) ^ 2)).sum / (samples.length : ℚ)

/-- Comparison `√ msq > t`, expressed without a square root: since `√ msq ≥ 0`, the
comparison holds iff `t < 0`, or `t ≥ 0` and `t² < msq`.  This is exactly the
source's `rms > threshold` with `msq` the squared rms. -/
def rms_gt (msq t : ℚ) : Bool :=
  decide (t < 0 ∨ (0 ≤ t ∧ t ^ 2 < msq))

/-- Display level reported by `process`.  The source computes
`clamp((20·log10(rms) + 40) / 30, 0, 1)` when `rms > 0.001` and `0.0`
otherwise; the transcendental branch is kept symbolic (carrying the squared
rms it would be computed from), since no verified property evaluates it. -/
inductive DisplayLevel where
  | zero
  | db (rmsSq : ℚ)
deriving DecidableEq

/-- The `VadResult` struct. -/
structure VadResult where
  is_speech : Bool
  rms_level : DisplayLevel
deriving DecidableEq

/-- The `VoiceActivityDetector` struct. -/
structure VoiceActivityDetector where
  speech_threshold : ℚ
  silence_frames_threshold : Nat
  silence_frames : Nat
  in_speech : Bool
deriving DecidableEq

/-- Rust `VoiceActivityDetector::new`: threshold 0.02, silence threshold 15 frames,
counter 0, not in speech. -/
def VoiceActivityDetector.new : VoiceActivityDetector :=
  { speech_threshold := 1 / 50, silence_frames_threshold := 15,
    silence_frames := 0, in_speech := false }

/-- Rust `VoiceActivityDetector::process`: classify the chunk, update the
speech/silence state machine, and report the (hysteretic) state together with
the display level.  Returns the result and the updated detector. -/
def VoiceActivityDetector.process (vad : VoiceActivityDetector) (samples : List Int) :
    VadResult × VoiceActivityDetector :=
  let rmsSq := calculate_rms_sq samples
  let is_speech := rms_gt rmsSq vad.speech_threshold
  let vad' :=
    if is_speech then
      { vad with silence_frames := 0, in_speech := true }
    else if vad.in_speech then
      if vad.silence_frames_threshold ≤ vad.silence_frames + 1 then
        { vad with silence_frames := vad.silence_frames + 1, in_speech := false }
      else
        { vad with silence_frames := vad.silence_frames + 1 }
    else vad
  let display_level :=
    if rms_gt rmsSq (1 / 1000) then DisplayLevel.db rmsSq else DisplayLevel.zero
  ({ is_speech := vad'.in_speech, rms_level := display_level }, vad')

/-- Rust `VoiceActivityDetector::reset`. -/
def VoiceActivityDetector.reset (vad : VoiceActivityDetector) : VoiceActivityDetector :=
  { vad with silence_frames := 0, in_speech := false }

/-- Iterate `process` over a list of chunks, keeping only the state. -/
def VoiceActivityDetector.runProcess (vad : VoiceActivityDetector) :
    List (List Int) → VoiceActivityDetector
  | [] => vad
  | c :: cs => ((vad.process c).2).runProcess cs

/-! ## resample (audio/capture.rs) -/

/-- Rust `as` cast from `f64` to an integer type: truncation toward zero. -/
def ratTrunc (q : ℚ) : Int :=
  if 0 ≤ q then ⌊q⌋ else ⌈q⌉

/-- Rust `as i16` on an `f64`: truncate toward zero, saturating at the `i16`
bounds. -/
def f64_as_i16 (q : ℚ) : Int :=
  max (-32768) (min 32767 (ratTrunc q))

/-- One iteration of the `resample` loop body at output index `i`: compute the
floor/ceil source indices and the interpolation fraction, and produce the
output sample.  Only evaluated under the loop's bounds guard. -/
def resampleSample (samples : List Int) (ratio : ℚ) (i : Nat) : Int :=
  let srcIdx : ℚ := (i : ℚ) / ratio
  let srcIdxFloor : Nat := (⌊srcIdx⌋).toNat
  let srcIdxCeil : Nat := min (srcIdxFloor + 1) (samples.length - 1)
  let frac : ℚ := srcIdx - (srcIdxFloor : ℚ)
  if srcIdxCeil < samples.length then
    f64_as_i16 ((samples.getD srcIdxFloor 0 : ℚ) * (1 - frac)
      + (samples.getD srcIdxCeil 0 : ℚ) * frac)
  else
    samples.getD srcIdxFloor 0

/-- The `for i in 0..output_len` loop of `resample`, with `fuel` the number of
remaining iterations.  The `break` on `src_idx_floor >= samples.len()` ends
the loop, returning the output accumulated so far. -/
def resampleGo (samples : List Int) (ratio : ℚ) : Nat → Nat → List Int
  | _, 0 => []
  | i, fuel + 1 =>
    if samples.length ≤ (⌊(i : ℚ) / ratio⌋).toNat then []
    else resampleSample samples ratio i :: resampleGo samples ratio (i + 1) fuel

/-- Rust `resample` (capture.rs): identity inside the near-unity band, otherwise
linear interpolation over `(len·ratio) as usize` output samples
(`as usize` truncates toward zero and saturates at 0). -/
def resample (samples : List Int) (ratio : ℚ) : List Int :=
  if |ratio - 1| < 1 / 1000 then samples
  else resampleGo samples ratio 0 ((⌊(samples.length : ℚ) * ratio⌋).toNat)

/-- Bounds-checked variant of `resampleSample`: every source access goes
through `List.get?`, so the result is `none` iff some read is out of bounds. -/
def resampleSampleChecked (samples : List Int) (ratio : ℚ) (i : Nat) : Option Int :=
  let srcIdx : ℚ := (i : ℚ) / ratio
  let srcIdxFloor : Nat := (⌊srcIdx⌋).toNat
  let srcIdxCeil : Nat := min (srcIdxFloor + 1) (samples.length - 1)
  let frac : ℚ := srcIdx - (srcIdxFloor : ℚ)
  if srcIdxCeil < samples.length then
    match samples[srcIdxFloor]?, samples[srcIdxCeil]? with
    | some s0, some s1 => some (f64_as_i16 ((s0 : ℚ) * (1 - frac) + (s1 : ℚ) * frac))
    | _, _ => none
  else
    samples[srcIdxFloor]?

/-- Bounds-checked variant of the `resample` loop. -/
def resampleGoChecked (samples : List Int) (ratio : ℚ) : Nat → Nat → Option (List Int)
  | _, 0 => some []
  | i, fuel + 1 =>
    if samples.length ≤ (⌊(i : ℚ) / ratio⌋).toNat then some []
    else
      match resampleSampleChecked samples ratio i,
            resampleGoChecked samples ratio (i + 1) fuel with
      | some s, some rest => some (s :: rest)
      | _, _ => none

/-- Bounds-checked variant of `resample`. -/
def resampleChecked (samples : List Int) (ratio : ℚ) : Option (List Int) :=
  if |ratio - 1| < 1 / 1000 then some samples
  else resampleGoChecked samples ratio 0 ((⌊(samples.length : ℚ) * ratio⌋).toNat)

/-! ## WhisperEngine (whisper/worker.rs, whisper/gpu.rs)

The FFI surface (`WhisperContext::new_with_params`, inference) and the file
system (`Path::exists`, `Path::to_str`) are external effects; they are
embedded as explicit oracle parameters so the control flow of
`load_model_with_options` and `transcribe` can be stated over every possible
outcome of those calls. -/

/-- The `GpuBackend` enum (gpu.rs). -/
inductive GpuBackend where
  | Cpu
  | Metal
  | Cuda
  | HipBlas
  | Vulkan
deriving DecidableEq

/-- Rust `GpuBackend::name`. -/
def GpuBackend.name : GpuBackend → String
  | .Cpu => "CPU"
  | .Metal => "Metal"
  | .Cuda => "CUDA"
  | .HipBlas => "HIPBlas (ROCm)"
  | .Vulkan => "Vulkan"

/-- The `WhisperError` enum (worker.rs). -/
inductive WhisperError where
  | NotLoaded
  | LoadError (msg : String)
  | ModelNotFound (path : String)
  | TranscriptionError (msg : String)
  | InvalidAudio
deriving DecidableEq

/-- The `ModelLoadResult` struct (worker.rs). -/
structure ModelLoadResult where
  success : Bool
  using_gpu : Bool
  backend : String
  fallback_used : Bool
deriving DecidableEq

/-- A `PathBuf` at the granularity the engine observes it: whether
`exists()` holds, what `to_str()` yields, and its `display()` rendering. -/
structure ModelPath where
  path_exists : Bool
  to_str : Option String
  display : String
deriving DecidableEq

/-- The `WhisperConfig` struct.  `n_threads` is fixed at construction from
`optimal_thread_count()` (75 % of the logical CPUs, min 1); its value is
environment-dependent and irrelevant to the verified properties. -/
structure WhisperConfig where
  model_path : ModelPath
  language : Option String
  translate : Bool
  n_threads : Int
deriving DecidableEq

/-- The `WhisperEngine` struct, parametric in the opaque FFI context type. -/
structure WhisperEngine (Ctx : Type) where
  context : Option Ctx
  config : WhisperConfig
  using_gpu : Bool
  fallback_used : Bool

/-- Rust `WhisperEngine::load_model_with_options`.

Oracles: `gpu_backend` is the value of `detect_active_backend()` and
`newWithParams path use_gpu` the outcome of
`WhisperContext::new_with_params` for that path and GPU flag.

Returns the updated engine, the call's result, and the trace of `use_gpu`
flags passed to `new_with_params`, in call order (used to state that a code
path performs no GPU initialisation attempt). -/
def WhisperEngine.load_model_with_options {Ctx : Type}
    (gpu_backend : GpuBackend) (newWithParams : String → Bool → Except String Ctx)
    (e : WhisperEngine Ctx) (model_path : ModelPath) (force_cpu : Bool) :
    WhisperEngine Ctx × Except WhisperError ModelLoadResult × List Bool :=
  if model_path.path_exists = false then
    (e, .error (.ModelNotFound model_path.display), [])
  else
    let should_use_gpu : Bool := decide (gpu_backend ≠ GpuBackend.Cpu) && !force_cpu
    match model_path.to_str with
    | none => (e, .error (.LoadError "Invalid model path"), [])
    | some model_path_str =>
      -- CPU attempt (either forced or as fallback); `attempts` is the trace
      -- accumulated before reaching it.
      let cpu_attempt : List Bool → WhisperEngine Ctx × Except WhisperError ModelLoadResult × List Bool :=
        fun attempts =>
          match newWithParams model_path_str false with
          | .error err =>
            (e, .error (.LoadError ("CPU loading failed: " ++ err)), attempts ++ [false])
          | .ok ctx =>
            ({ context := some ctx,
               config := { e.config with model_path := model_path },
               using_gpu := false,
               fallback_used := should_use_gpu },
             .ok { success := true, using_gpu := false, backend := "CPU",
                   fallback_used := should_use_gpu },
             attempts ++ [false])
      if should_use_gpu then
        match newWithParams model_path_str true with
        | .ok ctx =>
          ({ context := some ctx,
             config := { e.config with model_path := model_path },
             using_gpu := true,
             fallback_used := false },
           .ok { success := true, using_gpu := true, backend := gpu_backend.name,
                 fallback_used := false },
           [true])
        | .error _ => cpu_attempt [true]
      else
        cpu_attempt []

/-- Rust `WhisperEngine::transcribe`.

`infer ctx samples` stands for the FFI inference pipeline
(`create_state`, `full`, `full_n_segments`, `full_get_segment_text`): on
success it yields the list of segment texts; on failure the already-formatted
error message.  The sample normalisation (`i16` to `[-1, 1]` by dividing by
`i16::MAX`), the segment concatenation with trailing spaces and the final
trim are code and are embedded. -/
def WhisperEngine.transcribe {Ctx : Type}
    (infer : Ctx → List ℚ → Except String (List String))
    (e : WhisperEngine Ctx) (samples : List Int) : Except WhisperError String :=
  match e.context with
  | none => .error .NotLoaded
  | some ctx =>
    if samples.isEmpty then .error .InvalidAudio
    else
      let samples_f32 : List ℚ := samples.map (fun s => (s : ℚ) / 32767)
      match infer ctx samples_f32 with
      | .error msg => .error (.TranscriptionError msg)
      | .ok segments =>
        .ok (String.join (segments.map (fun s => s ++ " "))).trim

/-- Rust `WhisperEngine::new`: no context, default config (`PathBuf::new()` is the
empty path: it does not exist, converts to the empty string and displays as
the empty string).  `n_threads` is set to the source's detection-failure
fallback of 4; no verified property depends on it. -/
def WhisperEngine.new (Ctx : Type) : WhisperEngine Ctx :=
  { context := none,
    config := { model_path := { path_exists := false, to_str := some "", display := "" },
                language := none, translate := false, n_threads := 4 },
    using_gpu := false,
    fallback_used := false }

/-! ## Helper lemmas -/

/-- Concatenating the chunks of a list recovers the list (for a positive
chunk size). -/
theorem chunksOf_flatten (n : Nat) (hn : 0 < n) (l : List Int) :
    (chunksOf n l).flatten = l := by
  have key : ∀ (k : Nat) (l : List Int), l.length ≤ k → (chunksOf n l).flatten = l := by
    intro k
    induction k with
    | zero =>
      intro l hl
      have hnil : l = [] := List.eq_nil_of_length_eq_zero (Nat.le_zero.mp hl)
      subst hnil
      rw [chunksOf]
      rfl
    | succ k ih =>
      intro l hl
      match l with
      | [] =>
        rw [chunksOf]
        rfl
      | x :: xs =>
        rw [chunksOf, dif_neg (Nat.pos_iff_ne_zero.mp hn), List.flatten_cons,
          ih ((x :: xs).drop n)
            (by simp only [List.length_drop, List.length_cons] at hl ⊢; omega),
          List.take_append_drop]
  exact key l.length l le_rfl

/-- An rms of 0 never exceeds a nonnegative threshold. -/
theorem rms_gt_zero_eq_false (t : ℚ) (h : 0 ≤ t) : rms_gt 0 t = false := by
  rw [rms_gt, decide_eq_false_iff_not]
  rintro (h1 | ⟨_, h3⟩)
  · exact absurd h1 (not_lt.mpr h)
  · exact absurd h3 (not_lt.mpr (sq_nonneg _))

/-- The all-zero one-sample chunk has zero rms. -/
theorem calculate_rms_sq_zero_chunk : calculate_rms_sq [0] = 0 := by
  norm_num [calculate_rms_sq]

/-- Under the loop's bounds guard (the floor index is in range), the
bounds-checked per-sample computation succeeds and agrees with the plain
one. -/
theorem resampleSampleChecked_eq (samples : List Int) (ratio : ℚ) (i : Nat)
    (h : (⌊(i : ℚ) / ratio⌋).toNat < samples.length) :
    resampleSampleChecked samples ratio i = some (resampleSample samples ratio i) := by
  dsimp only [resampleSampleChecked, resampleSample]
  split_ifs with hceil
  · rw [List.getElem?_eq_getElem h, List.getElem?_eq_getElem hceil,
      List.getD_eq_getElem?_getD, List.getD_eq_getElem?_getD,
      List.getElem?_eq_getElem h, List.getElem?_eq_getElem hceil]
    rfl
  · rw [List.getElem?_eq_getElem h, List.getD_eq_getElem?_getD,
      List.getElem?_eq_getElem h]
    rfl

/-- The bounds-checked resampling loop succeeds and agrees with the plain
loop: every read the loop performs is within the input bounds. -/
theorem resampleGoChecked_eq (samples : List Int) (ratio : ℚ) :
    ∀ (fuel i : Nat),
    resampleGoChecked samples ratio i fuel = some (resampleGo samples ratio i fuel) := by
  intro fuel
  induction fuel with
  | zero => intro i; rfl
  | succ n ih =>
    intro i
    rw [resampleGoChecked, resampleGo]
    split_ifs with hguard
    · rfl
    · rw [resampleSampleChecked_eq samples ratio i (by omega), ih (i + 1)]

/-- If every source index the loop would touch is in bounds, the early
`break` never fires and the loop emits exactly `fuel` samples. -/
theorem resampleGo_length (samples : List Int) (ratio : ℚ) :
    ∀ (fuel i : Nat),
    (∀ j, j < fuel → (⌊((i + j : Nat) : ℚ) / ratio⌋).toNat < samples.length) →
    (resampleGo samples ratio i fuel).length = fuel := by
  intro fuel
  induction fuel with
  | zero => intro i _; rfl
  | succ n ih =>
    intro i h
    have hguard : ¬ (samples.length ≤ (⌊(i : ℚ) / ratio⌋).toNat) := by
      have h0 := h 0 (Nat.succ_pos n)
      simp only [Nat.add_zero] at h0
      omega
    have hrec : (resampleGo samples ratio (i + 1) n).length = n := by
      apply ih
      intro j hj
      have h2 := h (j + 1) (by omega)
      have hcast : i + (j + 1) = (i + 1) + j := by omega
      rw [hcast] at h2
      exact h2
    rw [resampleGo, if_neg hguard, List.length_cons, hrec]

/-- Lemma: `process` never changes the detector's thresholds. -/
theorem process_preserves_params (v : VoiceActivityDetector) (c : List Int) :
    ((v.process c).2).speech_threshold = v.speech_threshold ∧
    ((v.process c).2).silence_frames_threshold = v.silence_frames_threshold := by
  dsimp only [VoiceActivityDetector.process]
  split_ifs <;> exact ⟨rfl, rfl⟩

/-- A silence-classified chunk leaves the state untouched outside `Speech`;
inside `Speech` it increments the silence counter, leaving `Speech` exactly
when the counter stays below the threshold. -/
theorem process_silent_step (v : VoiceActivityDetector) (c : List Int)
    (h : rms_gt (calculate_rms_sq c) v.speech_threshold = false) :
    (v.process c).2 =
      if v.in_speech then
        if v.silence_frames_threshold ≤ v.silence_frames + 1 then
          { v with silence_frames := v.silence_frames + 1, in_speech := false }
        else { v with silence_frames := v.silence_frames + 1 }
      else v := by
  dsimp only [VoiceActivityDetector.process]
  rw [h]
  simp

/-- A speech-classified chunk resets the silence counter and enters
`Speech`. -/
theorem process_speech_step (v : VoiceActivityDetector) (c : List Int)
    (h : rms_gt (calculate_rms_sq c) v.speech_threshold = true) :
    (v.process c).2 = { v with silence_frames := 0, in_speech := true } := by
  dsimp only [VoiceActivityDetector.process]
  rw [h]
  simp

/-- Running silence-classified chunks from `Speech` stays in `Speech` and
adds their count to the silence counter, while the counter stays below the
threshold. -/
theorem runProcess_silent_stays (chunks : List (List Int)) :
    ∀ v : VoiceActivityDetector, v.in_speech = true →
    (∀ c ∈ chunks, rms_gt (calculate_rms_sq c) v.speech_threshold = false) →
    v.silence_frames + chunks.length < v.silence_frames_threshold →
    (v.runProcess chunks).in_speech = true ∧
    (v.runProcess chunks).silence_frames = v.silence_frames + chunks.length := by
  induction chunks with
  | nil =>
    intro v hin _ _
    exact ⟨hin, by simp [VoiceActivityDetector.runProcess]⟩
  | cons c cs ih =>
    intro v hin hs hlt
    rw [VoiceActivityDetector.runProcess]
    have hc : rms_gt (calculate_rms_sq c) v.speech_threshold = false := hs c (by simp)
    rw [process_silent_step v c hc, if_pos hin,
      if_neg (by simp only [List.length_cons] at hlt; omega)]
    obtain ⟨h1, h2⟩ := ih { v with silence_frames := v.silence_frames + 1 }
      hin (fun d hd => hs d (List.mem_cons_of_mem c hd))
      (by
        show v.silence_frames + 1 + cs.length < v.silence_frames_threshold
        simp only [List.length_cons] at hlt
        omega)
    refine ⟨h1, ?_⟩
    rw [h2]
    simp only [List.length_cons]
    omega

/-- Running silence-classified chunks from `Speech` leaves `Speech` exactly
when the counter reaches the threshold on the final chunk. -/
theorem runProcess_silent_flips (chunks : List (List Int)) :
    ∀ v : VoiceActivityDetector, v.in_speech = true →
    (∀ c ∈ chunks, rms_gt (calculate_rms_sq c) v.speech_threshold = false) →
    v.silence_frames < v.silence_frames_threshold →
    v.silence_frames + chunks.length = v.silence_frames_threshold →
    (v.runProcess chunks).in_speech = false := by
  induction chunks with
  | nil =>
    intro v _ _ hlt heq
    simp only [List.length_nil, Nat.add_zero] at heq
    omega
  | cons c cs ih =>
    intro v hin hs hlt heq
    rw [VoiceActivityDetector.runProcess]
    have hc : rms_gt (calculate_rms_sq c) v.speech_threshold = false := hs c (by simp)
    rw [process_silent_step v c hc, if_pos hin]
    by_cases hth : v.silence_frames_threshold ≤ v.silence_frames + 1
    · rw [if_pos hth]
      have hcs : cs = [] := List.eq_nil_of_length_eq_zero
        (by simp only [List.length_cons] at heq; omega)
      subst hcs
      rw [VoiceActivityDetector.runProcess]
    · rw [if_neg hth]
      exact ih { v with silence_frames := v.silence_frames + 1 } hin
        (fun d hd => hs d (List.mem_cons_of_mem c hd))
        (by
          show v.silence_frames + 1 < v.silence_frames_threshold
          omega)
        (by
          show v.silence_frames + 1 + cs.length = v.silence_frames_threshold
          simp only [List.length_cons] at heq
          omega)

/-! ## Claim theorems -/

/-- C8: the operation `drain` removes and concatenates all queued chunks in FIFO order and
leaves the queue empty; `pop` removes and returns the oldest chunk; and for
every sample sequence pushed into an empty streamer (with positive chunk
size), an immediately following `drain` returns exactly the original
sequence. -/
theorem audioStreamer_drain_fifo (s t : AudioStreamer) (samples : List Int)
    (hempty : t.buffer = []) (hcs : 0 < t.chunk_size) :
    s.drain.1 = s.buffer.flatten ∧ s.drain.2.buffer = [] ∧
    (∀ c rest, s.buffer = c :: rest → s.pop = (some c, { s with buffer := rest })) ∧
    (t.push samples).drain.1 = samples := by
  refine ⟨rfl, rfl, ?_, ?_⟩
  · intro c rest h
    simp [AudioStreamer.pop, h]
  · simp [AudioStreamer.push, AudioStreamer.drain, hempty,
      chunksOf_flatten t.chunk_size hcs]

/-- C8 witness: pushing a concrete sequence into a fresh 16 kHz streamer and
draining returns it. -/
theorem audioStreamer_drain_fifo_witness :
    ((AudioStreamer.new 16000).push [1, 2, 3]).drain.1 = [1, 2, 3] := by
  have h := audioStreamer_drain_fifo (AudioStreamer.new 16000) (AudioStreamer.new 16000)
    [1, 2, 3] rfl (by decide)
  exact h.2.2.2

/-- C6: for a ratio within 0.001 of 1, `resample` returns the input
unchanged. -/
theorem resample_near_unity_identity (samples : List Int) (ratio : ℚ)
    (h : |ratio - 1| < 1 / 1000) : resample samples ratio = samples := by
  rw [resample, if_pos h]

/-- C6 witness: ratio exactly 1 on a concrete input. -/
theorem resample_near_unity_identity_witness :
    resample [5, -3, 7] 1 = [5, -3, 7] :=
  resample_near_unity_identity [5, -3, 7] 1 (by norm_num)

/-- C1 counterexample: with no context loaded, `transcribe` on the empty
sample sequence fails with `NotLoaded`, not `InvalidAudio` (the not-loaded
check precedes the empty-audio check). -/
theorem transcribe_empty_unloaded_counterexample :
    WhisperEngine.transcribe (fun (_ : Unit) _ => .error "") (WhisperEngine.new Unit) [] =
      .error WhisperError.NotLoaded ∧
    (Except.error WhisperError.NotLoaded : Except WhisperError String) ≠
      .error WhisperError.InvalidAudio :=
  ⟨rfl, by
    intro h
    injection h with h2
    exact WhisperError.noConfusion h2⟩

/-- C1 (amended): `transcribe` fails with `NotLoaded` whenever no context is
loaded (regardless of the samples, including empty ones), and fails with
`InvalidAudio` on an empty sample sequence whenever a context is loaded. -/
theorem transcribe_notLoaded_then_invalidAudio {Ctx : Type}
    (infer : Ctx → List ℚ → Except String (List String))
    (e : WhisperEngine Ctx) (samples : List Int) :
    (e.context = none → e.transcribe infer samples = .error .NotLoaded) ∧
    (∀ ctx, e.context = some ctx → samples = [] →
      e.transcribe infer samples = .error .InvalidAudio) := by
  constructor
  · intro h
    simp [WhisperEngine.transcribe, h]
  · intro ctx hctx hs
    subst hs
    simp [WhisperEngine.transcribe, hctx]

/-- C1 (amended) witness: a concrete unloaded engine on nonempty samples
fails `NotLoaded`; a concrete loaded engine on empty samples fails
`InvalidAudio`. -/
theorem transcribe_notLoaded_then_invalidAudio_witness :
    WhisperEngine.transcribe (fun (_ : Unit) _ => .error "") (WhisperEngine.new Unit) [1] =
      .error WhisperError.NotLoaded ∧
    WhisperEngine.transcribe (fun (_ : Unit) _ => .ok [])
      { WhisperEngine.new Unit with context := some () } [] =
      .error WhisperError.InvalidAudio := by
  constructor
  · exact (transcribe_notLoaded_then_invalidAudio _ (WhisperEngine.new Unit) [1]).1 rfl
  · exact (transcribe_notLoaded_then_invalidAudio _
      { WhisperEngine.new Unit with context := some () } []).2 () rfl rfl

/-- C3: loading from a path that does not exist fails with `ModelNotFound`
and returns the engine exactly as it was (context, `using_gpu`,
`fallback_used` and configured model path all unchanged), with no
initialisation attempted. -/
theorem load_model_not_found_preserves_state {Ctx : Type}
    (gpu_backend : GpuBackend) (newWithParams : String → Bool → Except String Ctx)
    (e : WhisperEngine Ctx) (model_path : ModelPath) (force_cpu : Bool)
    (h : model_path.path_exists = false) :
    e.load_model_with_options gpu_backend newWithParams model_path force_cpu =
      (e, .error (.ModelNotFound model_path.display), []) := by
  rw [WhisperEngine.load_model_with_options, if_pos h]

/-- C3 witness: an engine with a previously loaded context and GPU flag,
asked to load a nonexistent path, is returned untouched. -/
theorem load_model_not_found_preserves_state_witness :
    WhisperEngine.load_model_with_options GpuBackend.Vulkan (fun _ _ => .ok ())
      { WhisperEngine.new Unit with context := some (), using_gpu := true }
      { path_exists := false, to_str := some "/m.bin", display := "/m.bin" } false =
      ({ WhisperEngine.new Unit with context := some (), using_gpu := true },
       .error (.ModelNotFound "/m.bin"), []) :=
  load_model_not_found_preserves_state GpuBackend.Vulkan (fun _ _ => .ok ())
    { WhisperEngine.new Unit with context := some (), using_gpu := true }
    { path_exists := false, to_str := some "/m.bin", display := "/m.bin" } false rfl

/-- C10: every `Ok` result of `load_model_with_options` has
`success = true`; an unsuccessful result value is never produced. -/
theorem load_model_ok_implies_success {Ctx : Type}
    (gpu_backend : GpuBackend) (newWithParams : String → Bool → Except String Ctx)
    (e : WhisperEngine Ctx) (model_path : ModelPath) (force_cpu : Bool)
    (r : ModelLoadResult)
    (h : (e.load_model_with_options gpu_backend newWithParams model_path force_cpu).2.1 =
      .ok r) :
    r.success = true := by
  dsimp only [WhisperEngine.load_model_with_options] at h
  split at h
  · exact Except.noConfusion h
  · split at h
    · exact Except.noConfusion h
    · split at h
      · split at h
        · injection h with h2
          subst h2
          rfl
        · split at h
          · exact Except.noConfusion h
          · injection h with h2
            subst h2
            rfl
      · split at h
        · exact Except.noConfusion h
        · injection h with h2
          subst h2
          rfl

/-- C10 witness: a concrete successful CPU load yields an `Ok` result whose
`success` field is `true`. -/
theorem load_model_ok_implies_success_witness :
    ((WhisperEngine.new Unit).load_model_with_options GpuBackend.Cpu (fun _ _ => .ok ())
      { path_exists := true, to_str := some "m", display := "m" } false).2.1 =
      .ok { success := true, using_gpu := false, backend := "CPU", fallback_used := false } ∧
    ({ success := true, using_gpu := false, backend := "CPU",
       fallback_used := false } : ModelLoadResult).success = true := by
  constructor
  · rfl
  · exact load_model_ok_implies_success GpuBackend.Cpu (fun _ _ => .ok ())
      (WhisperEngine.new Unit)
      { path_exists := true, to_str := some "m", display := "m" } false _ rfl

/-- C2: with `force_cpu = true` no GPU initialisation is ever attempted (the
attempt trace contains no `use_gpu = true` call) and a successful load
reports `using_gpu = false, fallback_used = false`; when the GPU attempt is
made and fails but the CPU attempt succeeds, the call returns
`using_gpu = false, fallback_used = true` with trace GPU-then-CPU. -/
theorem load_model_force_cpu_and_fallback {Ctx : Type}
    (gpu_backend : GpuBackend) (newWithParams : String → Bool → Except String Ctx)
    (e : WhisperEngine Ctx) (model_path : ModelPath) :
    true ∉ (e.load_model_with_options gpu_backend newWithParams model_path true).2.2 ∧
    (∀ r, (e.load_model_with_options gpu_backend newWithParams model_path true).2.1 =
        .ok r → r.using_gpu = false ∧ r.fallback_used = false) ∧
    (∀ s msg ctx, model_path.path_exists = true → model_path.to_str = some s →
      gpu_backend ≠ GpuBackend.Cpu →
      newWithParams s true = .error msg → newWithParams s false = .ok ctx →
      (e.load_model_with_options gpu_backend newWithParams model_path false).2 =
        (.ok { success := true, using_gpu := false, backend := "CPU",
               fallback_used := true }, [true, false])) := by
  refine ⟨?_, ?_, ?_⟩
  · dsimp only [WhisperEngine.load_model_with_options]
    split
    · simp
    · split
      · simp
      · simp only [Bool.not_true, Bool.and_false]
        split
        · rename_i hcontra
          simp at hcontra
        · split <;> simp
  · intro r h
    dsimp only [WhisperEngine.load_model_with_options] at h
    split at h
    · exact Except.noConfusion h
    · split at h
      · exact Except.noConfusion h
      · simp only [Bool.not_true, Bool.and_false] at h
        split at h
        · rename_i hcontra
          simp at hcontra
        · split at h
          · exact Except.noConfusion h
          · injection h with h2
            subst h2
            exact ⟨rfl, rfl⟩
  · intro s msg ctx h1 hs hgb hgpu hcpu
    have hd : decide (gpu_backend ≠ GpuBackend.Cpu) = true := decide_eq_true hgb
    simp [WhisperEngine.load_model_with_options, h1, hs, hd, hgpu, hcpu]

/-- C2 witness: concrete instantiations of both halves — a forced-CPU load
with a clean trace, and a GPU-fails/CPU-succeeds load reporting a fallback. -/
theorem load_model_force_cpu_and_fallback_witness :
    true ∉ ((WhisperEngine.new Unit).load_model_with_options GpuBackend.Vulkan
      (fun _ g => if g then .error "gpu init failed" else .ok ())
      { path_exists := true, to_str := some "m", display := "m" } true).2.2 ∧
    ((WhisperEngine.new Unit).load_model_with_options GpuBackend.Vulkan
      (fun _ g => if g then .error "gpu init failed" else .ok ())
      { path_exists := true, to_str := some "m", display := "m" } false).2 =
      (.ok { success := true, using_gpu := false, backend := "CPU",
             fallback_used := true }, [true, false]) := by
  constructor
  · exact (load_model_force_cpu_and_fallback GpuBackend.Vulkan
      (fun _ g => if g then .error "gpu init failed" else .ok ())
      (WhisperEngine.new Unit)
      { path_exists := true, to_str := some "m", display := "m" }).1
  · exact (load_model_force_cpu_and_fallback GpuBackend.Vulkan
      (fun _ g => if g then .error "gpu init failed" else .ok ())
      (WhisperEngine.new Unit)
      { path_exists := true, to_str := some "m", display := "m" }).2.2
      "m" "gpu init failed" () rfl rfl (by decide) rfl rfl

/-- C4: starting in `Speech` with a zero silence counter (the state any
speech-classified chunk produces), `silence_frame_threshold - 1` consecutive
silence-classified chunks leave the reported state `Speech`, the threshold-th
consecutive one transitions it to `Silence`, and any speech-classified chunk
resets the silence counter to 0 with the state staying `Speech`. -/
theorem vad_speech_to_silence (v : VoiceActivityDetector) (chunks : List (List Int))
    (hin : v.in_speech = true) (h0 : v.silence_frames = 0)
    (ht : 1 ≤ v.silence_frames_threshold)
    (hsilent : ∀ c ∈ chunks, rms_gt (calculate_rms_sq c) v.speech_threshold = false) :
    (chunks.length = v.silence_frames_threshold - 1 →
      (v.runProcess chunks).in_speech = true) ∧
    (chunks.length = v.silence_frames_threshold →
      (v.runProcess chunks).in_speech = false) ∧
    (∀ c, rms_gt (calculate_rms_sq c) v.speech_threshold = true →
      ((v.process c).2).silence_frames = 0 ∧ ((v.process c).2).in_speech = true) := by
  refine ⟨?_, ?_, ?_⟩
  · intro hlen
    exact (runProcess_silent_stays chunks v hin hsilent (by omega)).1
  · intro hlen
    exact runProcess_silent_flips chunks v hin hsilent (by omega) (by omega)
  · intro c hc
    rw [process_speech_step v c hc]
    exact ⟨rfl, rfl⟩

/-- C4 witness: with threshold 2 and a zero counter, one silent chunk keeps
the state `Speech` and two consecutive silent chunks move it to `Silence`. -/
theorem vad_speech_to_silence_witness :
    (VoiceActivityDetector.runProcess ⟨1/50, 2, 0, true⟩ [[0]]).in_speech = true ∧
    (VoiceActivityDetector.runProcess ⟨1/50, 2, 0, true⟩ [[0], [0]]).in_speech = false := by
  have hq : rms_gt (calculate_rms_sq [0]) (1/50 : ℚ) = false := by
    rw [calculate_rms_sq_zero_chunk]
    exact rms_gt_zero_eq_false _ (by norm_num)
  constructor
  · exact (vad_speech_to_silence ⟨1/50, 2, 0, true⟩ [[0]] rfl rfl (by decide)
      (by
        intro c hc
        simp only [List.mem_singleton] at hc
        subst hc
        exact hq)).1 (by decide)
  · exact (vad_speech_to_silence ⟨1/50, 2, 0, true⟩ [[0], [0]] rfl rfl (by decide)
      (by
        intro c hc
        simp only [List.mem_cons, List.mem_singleton, List.not_mem_nil, or_false] at hc
        rcases hc with rfl | rfl
        · exact hq
        · exact hq)).2.1 (by decide)

/-- C9: the function `process` on an empty sample slice is total — the rms is 0 (the
division is guarded by the empty check), the reported display level is 0, the
chunk is classified as silence (for the nonnegative thresholds every
reachable detector has), the state update is exactly that of any other
silence-classified chunk, and in the `Speech` state the silence counter is
incremented. -/
theorem vad_process_empty_safe (v : VoiceActivityDetector)
    (h : 0 ≤ v.speech_threshold) :
    calculate_rms_sq [] = 0 ∧
    rms_gt (calculate_rms_sq []) v.speech_threshold = false ∧
    (v.process []).1.rms_level = DisplayLevel.zero ∧
    (∀ c, rms_gt (calculate_rms_sq c) v.speech_threshold = false →
      (v.process []).2 = (v.process c).2) ∧
    (v.in_speech = true → ((v.process []).2).silence_frames = v.silence_frames + 1) := by
  have hrms : calculate_rms_sq [] = 0 := rfl
  have hempty : rms_gt (calculate_rms_sq []) v.speech_threshold = false := by
    rw [hrms]
    exact rms_gt_zero_eq_false _ h
  refine ⟨hrms, hempty, ?_, ?_, ?_⟩
  · have hdisp : rms_gt ((0 : ℚ)) (1 / 1000) = false :=
      rms_gt_zero_eq_false _ (by norm_num)
    dsimp only [VoiceActivityDetector.process]
    rw [hrms, hdisp]
    simp
  · intro c hc
    rw [process_silent_step v [] hempty, process_silent_step v c hc]
  · intro hin
    rw [process_silent_step v [] hempty, if_pos hin]
    split_ifs <;> rfl

/-- C9 witness: a concrete in-speech detector processes the empty slice into
an incremented silence counter and a zero display level. -/
theorem vad_process_empty_safe_witness :
    ((VoiceActivityDetector.process ⟨1/50, 15, 3, true⟩ []).2).silence_frames = 4 ∧
    (VoiceActivityDetector.process ⟨1/50, 15, 3, true⟩ []).1.rms_level =
      DisplayLevel.zero := by
  constructor
  · exact (vad_process_empty_safe ⟨1/50, 15, 3, true⟩ (by norm_num)).2.2.2.2 rfl
  · exact (vad_process_empty_safe ⟨1/50, 15, 3, true⟩ (by norm_num)).2.2.1

/-- C5: for every positive ratio outside the near-unity band, the output
length of `resample` is within 1 sample of `round(input_length * ratio)`. -/
theorem resample_length_within_one (samples : List Int) (ratio : ℚ)
    (hpos : 0 < ratio) (hfar : 1 / 1000 ≤ |ratio - 1|) :
    |((resample samples ratio).length : ℤ) -
      round ((samples.length : ℚ) * ratio)| ≤ 1 := by
  rw [resample, if_neg (not_lt.mpr hfar)]
  have hx0 : (0 : ℚ) ≤ (samples.length : ℚ) * ratio :=
    mul_nonneg (by positivity) hpos.le
  have hfl0 : (0 : ℤ) ≤ ⌊(samples.length : ℚ) * ratio⌋ := Int.floor_nonneg.mpr hx0
  have hlen : (resampleGo samples ratio 0
      ((⌊(samples.length : ℚ) * ratio⌋).toNat)).length =
      (⌊(samples.length : ℚ) * ratio⌋).toNat := by
    apply resampleGo_length
    intro j hj
    have hjz : (j : ℤ) < ⌊(samples.length : ℚ) * ratio⌋ := by omega
    have hjq : (j : ℚ) < (samples.length : ℚ) * ratio :=
      lt_of_lt_of_le (by exact_mod_cast hjz)
        (Int.floor_le ((samples.length : ℚ) * ratio))
    have hdiv : (j : ℚ) / ratio < (samples.length : ℚ) := by
      rw [div_lt_iff₀ hpos]
      exact hjq
    have hfloor : ⌊(j : ℚ) / ratio⌋ < (samples.length : ℤ) :=
      Int.floor_lt.mpr (by exact_mod_cast hdiv)
    have hlenpos : 0 < samples.length := by
      rcases Nat.eq_zero_or_pos samples.length with h0 | h0
      · rw [h0] at hjq
        simp only [Nat.cast_zero, zero_mul] at hjq
        exact absurd hjq (not_lt.mpr (by positivity))
      · exact h0
    simp only [Nat.zero_add]
    omega
  rw [hlen, Int.toNat_of_nonneg hfl0, round_eq]
  have h2 : ⌊(samples.length : ℚ) * ratio⌋ ≤ ⌊(samples.length : ℚ) * ratio + 1/2⌋ :=
    Int.floor_le_floor (by linarith)
  have h3 : ⌊(samples.length : ℚ) * ratio + 1/2⌋ ≤ ⌊(samples.length : ℚ) * ratio⌋ + 1 := by
    calc ⌊(samples.length : ℚ) * ratio + 1/2⌋
        ≤ ⌊(samples.length : ℚ) * ratio + 1⌋ := Int.floor_le_floor (by linarith)
      _ = ⌊(samples.length : ℚ) * ratio⌋ + 1 :=
        Int.floor_add_one ((samples.length : ℚ) * ratio)
  rw [abs_le]
  omega

/-- C5 witness: 4 samples at ratio 1/2 resample to a length within 1 of
`round(4 * (1/2)) = 2`. -/
theorem resample_length_within_one_witness :
    |((resample [10, 20, 30, 40] (1/2)).length : ℤ) -
      round ((([10, 20, 30, 40] : List Int).length : ℚ) * (1/2))| ≤ 1 :=
  resample_length_within_one [10, 20, 30, 40] (1/2) (by norm_num)
    (by
      have h : |(1/2 - 1 : ℚ)| = 1/2 := by
        rw [show (1/2 - 1 : ℚ) = -(1/2) by norm_num, abs_neg,
          abs_of_nonneg (by norm_num : (0 : ℚ) ≤ 1/2)]
      rw [h]
      norm_num)

/-- C7: the resampler is total and in-bounds over all inputs — the
bounds-checked variant (whose every source read is through an
option-returning access) always succeeds and agrees with the plain function,
and the empty input always yields the empty output. -/
theorem resample_total_in_bounds (samples : List Int) (ratio : ℚ) :
    resampleChecked samples ratio = some (resample samples ratio) ∧
    resample [] ratio = [] := by
  constructor
  · rw [resampleChecked, resample]
    split_ifs with h
    · rfl
    · exact resampleGoChecked_eq samples ratio _ 0
  · rw [resample]
    split_ifs with h
    · rfl
    · have h0 : (⌊((([] : List Int).length : ℚ)) * ratio⌋).toNat = 0 := by
        simp
      rw [h0]
      rfl

end S2Tui
